import Mathlib

/-!
Verification development for the ZunnoGame backend (Rust sources under
`server/`).  The definitions below are shallow embeddings of the Rust
functions they are named after; machine integers (`u8`, `u64`, `usize`,
`U256`) are modelled as `Nat` (all the arithmetic performed by the embedded
code stays far below the overflow bounds once the source's own validation
bounds are in place, and `U256` values are only ever compared, stored, or
converted to seed bytes).  The external ChaCha20 pseudo-random generator
(crate `rand_chacha`, not part of this repository) is abstracted as an
arbitrary index-choice function `rng : Nat → Nat`: `rand`'s
`SliceRandom::shuffle` is the Fisher-Yates loop
`for i in (1..len).rev() { swap(i, rng.gen_range(0..=i)) }`, and every seed
determines one such choice function, so properties proved for all `rng`
hold for every seed.
-/

namespace ZunnoGame

/-! ## server/lib/src/lib.rs -/

/-- `DECK_SIZE` from lib.rs. -/
def DECK_SIZE : Nat := 108

/-- `MAX_PLAYERS` from lib.rs. -/
def MAX_PLAYERS : Nat := 10

/-- `MAX_CARDS_PER_PLAYER` from lib.rs. -/
def MAX_CARDS_PER_PLAYER : Nat := 20

/-- `ShuffleOutcome` from lib.rs. -/
structure ShuffleOutcome where
  player_hands : List (List Nat)
  draw_pile : List Nat
  draw_pile_count : Nat
deriving Repr, DecidableEq

/-- `validate_game_params` from lib.rs: bounds checks on the player count and
cards-per-player, then the deck-capacity check `players * cards < DECK_SIZE`
(the source rejects `total_cards_needed >= DECK_SIZE`). -/
def validate_game_params (num_players cards_per_player : Nat) : Except String Unit :=
  if num_players = 0 || num_players > MAX_PLAYERS then
    .error "Invalid number of players"
  else if cards_per_player = 0 || cards_per_player > MAX_CARDS_PER_PLAYER then
    .error "Invalid cards per player"
  else if num_players * cards_per_player ≥ DECK_SIZE then
    .error "Not enough cards"
  else
    .ok ()

/-- One `self.swap(i, j)` on a slice, as in `rand`'s Fisher-Yates loop:
exchange the elements at positions `i` and `j` (both in range at every call
site). -/
def swapIdx (l : List Nat) (i j : Nat) : List Nat :=
  (l.set i (l.getD j 0)).set j (l.getD i 0)

/-- The Fisher-Yates loop of `rand`'s `SliceRandom::shuffle`: for `i` from
`len - 1` down to `1`, swap position `i` with the generator's choice in
`[0, i]` (the choice abstracted as `rng i % (i + 1)`). -/
def fyLoop (rng : Nat → Nat) : Nat → List Nat → List Nat
  | 0, deck => deck
  | i + 1, deck => fyLoop rng i (swapIdx deck (i + 1) (rng (i + 1) % (i + 2)))

/-- `shuffle_deck` from lib.rs: seeds a ChaCha20 generator from the `U256`
seed and runs `deck.shuffle(&mut rng)`; the generator is abstracted as the
index-choice function `rng`. -/
def shuffle_deck (deck : List Nat) (rng : Nat → Nat) : List Nat :=
  fyLoop rng (deck.length - 1) deck

/-- The loop body of `distribute_cards`: card number `i` (position in the
dealt prefix) is pushed onto hand `i % num_players`. -/
def dealStep (num_players : Nat) (hands : List (List Nat)) (ic : Nat × Nat) :
    List (List Nat) :=
  hands.set (ic.1 % num_players) ((hands.getD (ic.1 % num_players) []) ++ [ic.2])

/-- `distribute_cards` from lib.rs: iterate over the first
`num_players * cards_per_player` cards of the deck, enumerated, pushing each
onto the hand of player `i % num_players`. -/
def distribute_cards (deck : List Nat) (num_players cards_per_player : Nat) :
    List (List Nat) :=
  ((deck.take (num_players * cards_per_player)).enum).foldl
    (dealStep num_players) (List.replicate num_players [])

/-- `perform_shuffle` from lib.rs: validate, build the deck `0..DECK_SIZE`,
shuffle it, deal the hands, and keep the remaining cards as the draw pile. -/
def perform_shuffle (num_players cards_per_player : Nat) (rng : Nat → Nat) :
    Except String ShuffleOutcome :=
  match validate_game_params num_players cards_per_player with
  | .error e => .error e
  | .ok _ =>
    let deck := shuffle_deck (List.range DECK_SIZE) rng
    let player_hands := distribute_cards deck num_players cards_per_player
    let total_cards_needed := num_players * cards_per_player
    let draw_pile := deck.drop total_cards_needed
    .ok { player_hands := player_hands
          draw_pile := draw_pile
          draw_pile_count := draw_pile.length }

/-! ## server/backend/src/game/state.rs -/

/-- `BlockchainSeed` from blockchain/types.rs (`U256` values as `Nat`). -/
structure BlockchainSeed where
  value : Nat
  request_id : Nat
deriving Repr, DecidableEq

/-- `GameState` from game/state.rs.  Cards are deck indices (`u8` in the
source); `proof_cid` is `Option<String>` as declared in state.rs. -/
structure GameState where
  player_hands : List (List Nat)
  draw_pile : List Nat
  discard_pile : List Nat
  is_shuffled : Bool
  seed_metadata : BlockchainSeed
  proof_cid : Option String
deriving Repr, DecidableEq

/-- The `GameState` literal built at the end of `finalize_game`
(core.rs): the shuffle outcome's hands and draw pile, an empty discard
pile, and the VRF seed metadata (the CID, a `String` in core.rs, is stored
in the `Option<String>` field declared by state.rs). -/
def finalize_game_state (shuffle_outcome : ShuffleOutcome)
    (random_value request_id : Nat) (proof_cid : String) : GameState :=
  { player_hands := shuffle_outcome.player_hands
    draw_pile := shuffle_outcome.draw_pile
    discard_pile := []
    is_shuffled := true
    seed_metadata := { value := random_value, request_id := request_id }
    proof_cid := some proof_cid }

/-! ## server/backend/src/game/operations.rs

The Rust operations mutate the `GameState` in place and return
`Result<u8>`; the embedding returns the pair of the `Result` and the state
as it stands when the function returns (each early `return Err` happens
before any mutation, except the final `pop`, whose failure branch is
modelled faithfully as returning the state mutated so far). -/

/-- `GameState::is_valid_player` from state.rs. -/
def is_valid_player (gs : GameState) (player_id : Nat) : Bool :=
  player_id < gs.player_hands.length

/-- `GameState::is_initialized` from state.rs. -/
def is_initialized (gs : GameState) : Bool :=
  gs.is_shuffled && !gs.player_hands.isEmpty

/-- `GameState::total_cards` from state.rs: hand sizes plus draw pile plus
discard pile. -/
def total_cards (gs : GameState) : Nat :=
  (gs.player_hands.map List.length).sum + gs.draw_pile.length
    + gs.discard_pile.length

/-- `draw_card` from operations.rs.  `Vec::pop` removes the last element, so
the top of each pile is the end of the list.  The reshuffle's ChaCha20
generator (seeded with `seed_metadata.value.wrapping_add(1)`) is abstracted
as `rng`, exactly as in `shuffle_deck`. -/
def draw_card (gs : GameState) (player_id : Nat) (rng : Nat → Nat) :
    Except String Nat × GameState :=
  if !is_initialized gs then (.error "Game not initialized", gs)
  else if !is_valid_player gs player_id then (.error "Invalid player ID", gs)
  else if gs.draw_pile.isEmpty && gs.discard_pile.length ≤ 1 then
    (.error "No cards available", gs)
  else
    let gs1 :=
      if gs.draw_pile.isEmpty then
        let top_card := gs.discard_pile.getLastD 0
        { gs with
            draw_pile := shuffle_deck (gs.draw_pile ++ gs.discard_pile.dropLast) rng
            discard_pile := [top_card] }
      else gs
    match gs1.draw_pile.getLast? with
    | none => (.error "Draw pile empty", gs1)
    | some card =>
      (.ok card,
        { gs1 with
            draw_pile := gs1.draw_pile.dropLast
            player_hands := gs1.player_hands.set player_id
              ((gs1.player_hands.getD player_id []) ++ [card]) })

/-- `play_card` from operations.rs: `Vec::remove(card_index)` is
`eraseIdx`, and `discard_pile.push` appends at the end (the top). -/
def play_card (gs : GameState) (player_id : Nat) (card_index : Nat) :
    Except String Nat × GameState :=
  if !is_initialized gs then (.error "Game has not been initialized yet", gs)
  else if !is_valid_player gs player_id then (.error "Player not found", gs)
  else
    let hand := gs.player_hands.getD player_id []
    if card_index ≥ hand.length then (.error "Card index out of bounds", gs)
    else
      let played_card := hand.getD card_index 0
      (.ok played_card,
        { gs with
            player_hands := gs.player_hands.set player_id (hand.eraseIdx card_index)
            discard_pile := gs.discard_pile ++ [played_card] })

/-- A small initialized game state used to witness C10. -/
def exampleGameState : GameState :=
  { player_hands := [[1, 2], [3]], draw_pile := [5, 6], discard_pile := [7],
    is_shuffled := true, seed_metadata := ⟨0, 0⟩, proof_cid := none }

/-- The state after player 0 draws from `exampleGameState`. -/
def exampleDrawResult : GameState :=
  { player_hands := [[1, 2, 6], [3]], draw_pile := [5], discard_pile := [7],
    is_shuffled := true, seed_metadata := ⟨0, 0⟩, proof_cid := none }

/-- The state after player 0 plays the card at index 1 in
`exampleGameState`. -/
def examplePlayResult : GameState :=
  { player_hands := [[1], [3]], draw_pile := [5, 6], discard_pile := [7, 2],
    is_shuffled := true, seed_metadata := ⟨0, 0⟩, proof_cid := none }

/-! ## server/backend/src/blockchain/vrf.rs

`get_randomness` is embedded over an abstract behaviour of the oracle node
for one `request_id`/`from_block` pair.  `U256` values are `Nat`; the
sentinel unfulfilled value `U256::ZERO` is `0`. -/

/-- Outcome of `tokio::time::timeout(_, wait_for_vrf_event_ws _)` in
`get_randomness`: the first decoded fulfillment event's value arrives in
time (`value`), the subscription fails or the stream ends (`wsError`,
`Ok(Err _)` in the source), or the timeout elapses first (`timedOut`,
`Err _` in the source). -/
inductive WsOutcome where
  | value (v : Nat)
  | wsError
  | timedOut
deriving Repr, DecidableEq

/-- The oracle behaviour observed by the adapter: the historical-log query's
answer (`error` for a failed RPC call, otherwise the decoded `randomWord` of
each matching `RequestFulfilled` log, oldest first), the subscription
outcome, and the answer of each `getRandomWords` polling call, indexed by
attempt number starting at 1. -/
structure OracleBehaviour where
  historicalLogs : Except Unit (List Nat)
  wsOutcome : WsOutcome
  pollAnswers : Nat → Except Unit Nat

/-- `check_for_missed_event` from vrf.rs: propagate a log-query error,
otherwise return the first matching log's value, if any. -/
def check_for_missed_event (logs : Except Unit (List Nat)) :
    Except Unit (Option Nat) :=
  match logs with
  | .error e => .error e
  | .ok ls => .ok ls.head?

/-- The `for attempt in 1..=max_attempts` loop of `poll_random_words_http`:
each attempt queries `getRandomWords`; a non-zero value is returned at
once, while a zero value ("VRF not ready yet") and a query error both
continue to the next attempt.  `none` is the "Polling timeout" error after
the last attempt. -/
def pollLoop (pollAnswers : Nat → Except Unit Nat) :
    (attempt remaining : Nat) → Option Nat
  | _, 0 => none
  | attempt, remaining + 1 =>
    match pollAnswers attempt with
    | .ok v => if v ≠ 0 then some v else pollLoop pollAnswers (attempt + 1) remaining
    | .error _ => pollLoop pollAnswers (attempt + 1) remaining

/-- `poll_random_words_http` from vrf.rs. -/
def poll_random_words_http (pollAnswers : Nat → Except Unit Nat)
    (max_attempts : Nat) : Option Nat :=
  pollLoop pollAnswers 1 max_attempts

/-- `get_randomness` from vrf.rs: missed-event check first, then the
WebSocket subscription under the timeout, then HTTP polling with
`max(timeout_secs / 3, 5)` attempts. -/
def get_randomness (b : OracleBehaviour) (timeout_secs : Nat) :
    Except Unit Nat :=
  match check_for_missed_event b.historicalLogs with
  | .error e => .error e
  | .ok (some random_word) => .ok random_word
  | .ok none =>
    match b.wsOutcome with
    | .value v => .ok v
    | _ =>
      let poll_attempts := max (timeout_secs / 3) 5
      match poll_random_words_http b.pollAnswers poll_attempts with
      | some v => .ok v
      | none => .error ()

/-! ## server/backend/src/proof_management -/

/-- `IpfsError` from proof_management/errors.rs. -/
inductive IpfsError where
  | RequestFailed (msg : String)
  | UploadFailed (msg : String)
  | CidExtraction (msg : String)
  | SerializationError (msg : String)
  | NetworkError (msg : String)
  | ConfigError (msg : String)
deriving Repr, DecidableEq

/-- `IpfsUploadConfig` from retry_service.rs (delay in seconds). -/
structure IpfsUploadConfig where
  max_retries : Nat
  retry_delay_secs : Nat
deriving Repr, DecidableEq

/-- `IpfsUploadConfig::default`: `max_retries = 3`, delay 2 s. -/
def IpfsUploadConfig.rustDefault : IpfsUploadConfig := ⟨3, 2⟩

/-- `IpfsProvider` from proof_management/config.rs. -/
structure IpfsProvider where
  pinata_api_key : String
  pinata_api_secret : String
deriving Repr, DecidableEq

/-- `IpfsProvider::from_env`: succeeds only when both environment variables
are present, otherwise fails with `ConfigError` before any upload attempt is
made. -/
def IpfsProvider.from_env (envKey envSecret : Option String) :
    Except IpfsError IpfsProvider :=
  match envKey, envSecret with
  | some key, some secret => .ok ⟨key, secret⟩
  | _, _ => .error (.ConfigError "Missing environment variables")

/-- The `loop` of `upload_with_retry` from retry_service.rs.  `outcomes k`
is the result of the `k`-th `upload_json` call (0-based); `attempts` is the
source's retry counter and `remaining = max_retries - attempts`.  Any
failure while `attempts < max_retries` is retried after the delay; the
result is paired with the total number of `upload_json` calls made. -/
def uploadLoop (outcomes : Nat → Except IpfsError String) :
    (attempts remaining : Nat) → Except IpfsError String × Nat
  | attempts, 0 =>
    match outcomes attempts with
    | .ok cid => (.ok cid, attempts + 1)
    | .error e => (.error e, attempts + 1)
  | attempts, remaining + 1 =>
    match outcomes attempts with
    | .ok cid => (.ok cid, attempts + 1)
    | .error _ => uploadLoop outcomes (attempts + 1) remaining

/-- `upload_with_retry` from retry_service.rs, with the call count. -/
def upload_with_retry (outcomes : Nat → Except IpfsError String)
    (config : IpfsUploadConfig) : Except IpfsError String × Nat :=
  uploadLoop outcomes 0 config.max_retries

/-! ## server/backend/src/orchestrator -/

/-- `GameStatus` from orchestrator/storage.rs. -/
inductive GameStatus where
  | Requesting
  | WaitingForVRF
  | GeneratingProof
  | Ready
  | Failed (reason : String)
deriving Repr, DecidableEq

/-- `PendingGame` from orchestrator/storage.rs (`U256` request id as `Nat`). -/
structure PendingGame where
  session_id : String
  vrf_request_id : Nat
  vrf_block_number : Nat
  num_players : Nat
  cards_per_player : Nat
  requested_at : Nat
  status : GameStatus
deriving Repr, DecidableEq

/-- `GameInitiation` from orchestrator/storage.rs. -/
structure GameInitiation where
  session_id : String
  status : GameStatus
  estimated_wait_seconds : Nat
  vrf_request_id : Nat
deriving Repr, DecidableEq

/-- The `pending_games` map (`HashMap<String, PendingGame>`), as a lookup
function. -/
def Registry := String → Option PendingGame

def Registry.empty : Registry := fun _ => none

/-- `HashMap::insert`. -/
def Registry.insert (m : Registry) (k : String) (v : PendingGame) : Registry :=
  fun q => if q = k then some v else m q

/-- `initiate_game` from orchestrator/core.rs, restricted to its synchronous
effect on the `pending_games` map (the spawned `request_vrf_for_game` task is
modelled by the session step relation below).  The fresh UUID and the clock
reading are parameters.  The function performs no parameter validation and
has no failing path: it builds a `Requesting` record with zeroed VRF fields,
inserts it, and returns `Ok(GameInitiation ...)` with a 60-second estimate. -/
def initiate_game (pending_games : Registry) (session_id : String)
    (num_players cards_per_player : Nat) (now : Nat) :
    Except String GameInitiation × Registry :=
  let pending : PendingGame :=
    { session_id := session_id, vrf_request_id := 0, vrf_block_number := 0,
      num_players := num_players, cards_per_player := cards_per_player,
      requested_at := now, status := .Requesting }
  (.ok { session_id := session_id, status := .Requesting,
         estimated_wait_seconds := 60, vrf_request_id := 0 },
   pending_games.insert session_id pending)

/-! ### The per-session lifecycle as a labelled step relation

One session's registry record is touched by: the task spawned by
`initiate_game` (running `request_vrf_for_game`), the
`run_vrf_fulfillment_loop` ticks, and the `check_and_finalize_game` tasks
those ticks spawn.  Each Rust write block under `pending_games.write()` is
one atomic event; the loop's read of the statuses (under the read lock) and
the subsequent `tokio::spawn` calls are separate events, since the lock is
dropped in between.  `cleanup_expired_games`, which removes records rather
than changing their status, is not modelled. -/

/-- Per-session orchestrator state: the record's current status plus the
background-task bookkeeping — whether the `request_vrf_for_game` task
spawned by `initiate_game` is still outstanding, how many loop-tick
snapshots have selected this session but not yet spawned its attempt, and
how many `check_and_finalize_game` tasks are in flight before
(`waiting`, inside `get_randomness`) and after (`finalizing`, proof
generation and upload) their `GeneratingProof` write. -/
structure SessionState where
  status : GameStatus
  vrfReqPending : Bool
  pendingSpawn : Nat
  waiting : Nat
  finalizing : Nat
deriving Repr, DecidableEq

/-- The atomic events acting on one session's record. -/
inductive OrchEvent where
  | vrfOk
  | vrfErr (reason : String)
  | tickSnapshot
  | spawnAttempt
  | attemptTimeout
  | attemptRandom
  | finalizeOk
  | finalizeErr (reason : String)
deriving Repr, DecidableEq

/-- The step relation, one constructor per code path in orchestrator/core.rs:

* `vrfOk` — `request_vrf_for_game` succeeded: record the request id/block
  and write `WaitingForVRF` (lines 180-185; the write is unconditional when
  the record exists).
* `vrfErr` — `request_vrf_for_game` failed: the closure in `initiate_game`
  writes `Failed(reason)` (lines 104-116).
* `tickSnapshot` — a `run_vrf_fulfillment_loop` tick's read phase selected
  this session because its status snapshot was `WaitingForVRF`
  (lines 198-204); no status filter is re-checked afterwards.
* `spawnAttempt` — the tick's spawn phase launches the
  `check_and_finalize_game` task for a selected session (lines 207-233);
  nothing guards against attempts already in flight.
* `attemptTimeout` — the attempt's `get_randomness` returned an error
  (timeout included); the error is only logged at debug level
  (lines 216-231) and nothing is written.
* `attemptRandom` — `get_randomness` returned a value: the attempt writes
  `GeneratingProof` unconditionally (lines 266-271) and proceeds to
  `finalize_game`.
* `finalizeOk` — `finalize_game` completed: the completed game is stored
  and `Ready` is written unconditionally (lines 361-371).
* `finalizeErr` — `finalize_game` failed (shuffle, proof generation,
  serialization, or upload): the error propagates to the spawn closure and
  is only logged at debug level (lines 216-231); no status is written. -/
inductive Step : SessionState → OrchEvent → SessionState → Prop where
  | vrfOk (st : GameStatus) (ps w f : Nat) :
      Step ⟨st, true, ps, w, f⟩ .vrfOk ⟨.WaitingForVRF, false, ps, w, f⟩
  | vrfErr (st : GameStatus) (ps w f : Nat) (r : String) :
      Step ⟨st, true, ps, w, f⟩ (.vrfErr r) ⟨.Failed r, false, ps, w, f⟩
  | tickSnapshot (p : Bool) (ps w f : Nat) :
      Step ⟨.WaitingForVRF, p, ps, w, f⟩ .tickSnapshot
        ⟨.WaitingForVRF, p, ps + 1, w, f⟩
  | spawnAttempt (st : GameStatus) (p : Bool) (ps w f : Nat) :
      Step ⟨st, p, ps + 1, w, f⟩ .spawnAttempt ⟨st, p, ps, w + 1, f⟩
  | attemptTimeout (st : GameStatus) (p : Bool) (ps w f : Nat) :
      Step ⟨st, p, ps, w + 1, f⟩ .attemptTimeout ⟨st, p, ps, w, f⟩
  | attemptRandom (st : GameStatus) (p : Bool) (ps w f : Nat) :
      Step ⟨st, p, ps, w + 1, f⟩ .attemptRandom
        ⟨.GeneratingProof, p, ps, w, f + 1⟩
  | finalizeOk (st : GameStatus) (p : Bool) (ps w f : Nat) :
      Step ⟨st, p, ps, w, f + 1⟩ .finalizeOk ⟨.Ready, p, ps, w, f⟩
  | finalizeErr (st : GameStatus) (p : Bool) (ps w f : Nat) (r : String) :
      Step ⟨st, p, ps, w, f + 1⟩ (.finalizeErr r) ⟨st, p, ps, w, f⟩

/-- The state of a session right after `initiate_game` inserted its record:
status `Requesting`, the VRF-request task outstanding, no attempts. -/
def initSession : SessionState := ⟨.Requesting, true, 0, 0, 0⟩

def StepAny (s s' : SessionState) : Prop := ∃ e, Step s e s'

/-- States a session can be in at some point after `initiate_game`. -/
def Reachable (s : SessionState) : Prop :=
  Relation.ReflTransGen StepAny initSession s

/-- Position of a status along the forward order of the lifecycle. -/
def statusRank : GameStatus → Nat
  | .Requesting => 0
  | .WaitingForVRF => 1
  | .GeneratingProof => 2
  | .Ready => 3
  | .Failed _ => 4

def isFailed : GameStatus → Bool
  | .Failed _ => true
  | _ => false

/-- Number of `check_and_finalize_game` tasks in flight for the session. -/
def inFlightAttempts (s : SessionState) : Nat := s.waiting + s.finalizing

/-- The state invariant tying the bookkeeping counters to the status:
while the VRF request is outstanding the record is still `Requesting` with
no attempt activity; `Requesting` and `Failed` states have no attempt
activity at all; and no attempt has passed its `GeneratingProof` write
while the record still shows `WaitingForVRF`. -/
def SessionInv (s : SessionState) : Prop :=
  (s.vrfReqPending = true →
    s.status = .Requesting ∧ s.pendingSpawn = 0 ∧ s.waiting = 0 ∧ s.finalizing = 0)
  ∧ (s.status = .Requesting →
      s.pendingSpawn = 0 ∧ s.waiting = 0 ∧ s.finalizing = 0)
  ∧ (∀ r, s.status = .Failed r →
      s.pendingSpawn = 0 ∧ s.waiting = 0 ∧ s.finalizing = 0)
  ∧ (s.status = .WaitingForVRF → s.finalizing = 0)

/-! ### Basic lemmas about the shuffle and the deal -/

theorem validate_game_params_ok_iff (n c : Nat) :
    validate_game_params n c = .ok () ↔
      (0 < n ∧ n ≤ MAX_PLAYERS ∧ 0 < c ∧ c ≤ MAX_CARDS_PER_PLAYER ∧ n * c < DECK_SIZE) := by
  unfold validate_game_params
  split_ifs with h1 h2 h3 <;>
    simp_all [Nat.pos_iff_ne_zero, Nat.not_lt, Nat.not_le] <;> omega

theorem swapIdx_length (l : List Nat) (i j : Nat) :
    (swapIdx l i j).length = l.length := by
  simp [swapIdx]

/-- Prepending the old value at position `k` to `l.set k x` is a permutation
of prepending `x` to `l`. -/
theorem cons_set_perm (l : List Nat) (k : Nat) (x : Nat) (hk : k < l.length) :
    (l.getD k 0 :: l.set k x).Perm (x :: l) := by
  induction l generalizing k with
  | nil => simp at hk
  | cons h t ih =>
    cases k with
    | zero => simpa using List.Perm.swap x h t
    | succ k =>
      have hk' : k < t.length := by simpa using hk
      exact ((List.Perm.swap h (t.getD k 0) (t.set k x)).trans
        ((ih k hk').cons h)).trans (List.Perm.swap x h t)

theorem getD_set_self (l : List Nat) (i : Nat) (v : Nat) (h : i < l.length) :
    (l.set i v).getD i 0 = v := by
  induction l generalizing i with
  | nil => simp at h
  | cons a t ih =>
    cases i with
    | zero => rfl
    | succ i => exact ih i (by simpa using h)

theorem getD_set_ne (l : List Nat) (i j : Nat) (v : Nat) (h : i ≠ j) :
    (l.set i v).getD j 0 = l.getD j 0 := by
  induction l generalizing i j with
  | nil => simp
  | cons a t ih =>
    cases i with
    | zero => cases j with
      | zero => exact absurd rfl h
      | succ j => rfl
    | succ i =>
      cases j with
      | zero => rfl
      | succ j => exact ih i j (by omega)

theorem swapIdx_perm (l : List Nat) (i j : Nat) (hi : i < l.length)
    (hj : j < l.length) : (swapIdx l i j).Perm l := by
  have hj' : j < (l.set i (l.getD j 0)).length := by simpa using hj
  have h1 : ((l.set i (l.getD j 0)).getD j 0 :: swapIdx l i j).Perm
      (l.getD i 0 :: l.set i (l.getD j 0)) := cons_set_perm _ j _ hj'
  have h2 : (l.getD i 0 :: l.set i (l.getD j 0)).Perm (l.getD j 0 :: l) :=
    cons_set_perm l i _ hi
  have hc : (l.set i (l.getD j 0)).getD j 0 = l.getD j 0 := by
    by_cases hij : i = j
    · subst hij; exact getD_set_self l i _ hi
    · exact getD_set_ne l i j _ hij
  have := (h1.trans h2)
  rw [hc] at this
  exact this.cons_inv

theorem fyLoop_length (rng : Nat → Nat) (k : Nat) (deck : List Nat) :
    (fyLoop rng k deck).length = deck.length := by
  induction k generalizing deck with
  | zero => rfl
  | succ k ih => rw [fyLoop, ih, swapIdx_length]

theorem fyLoop_perm (rng : Nat → Nat) (k : Nat) (deck : List Nat)
    (hk : k < deck.length) : (fyLoop rng k deck).Perm deck := by
  induction k generalizing deck with
  | zero => exact List.Perm.refl deck
  | succ k ih =>
    have hlen : (swapIdx deck (k + 1) (rng (k + 1) % (k + 2))).length = deck.length :=
      swapIdx_length ..
    have hmod : rng (k + 1) % (k + 2) < deck.length :=
      lt_of_le_of_lt (Nat.le_of_lt_succ (Nat.mod_lt _ (by omega))) hk
    exact (ih _ (by omega)).trans (swapIdx_perm deck (k + 1) _ hk hmod)

theorem shuffle_deck_perm (deck : List Nat) (rng : Nat → Nat) :
    (shuffle_deck deck rng).Perm deck := by
  cases deck with
  | nil => exact List.Perm.refl _
  | cons h t =>
    exact fyLoop_perm rng _ _ (by simp)

theorem shuffle_deck_length (deck : List Nat) (rng : Nat → Nat) :
    (shuffle_deck deck rng).length = deck.length :=
  (shuffle_deck_perm deck rng).length_eq

theorem dealStep_length (n : Nat) (hands : List (List Nat)) (ic : Nat × Nat) :
    (dealStep n hands ic).length = hands.length := by
  simp [dealStep]

theorem foldl_dealStep_length (n : Nat) (l : List (Nat × Nat)) :
    ∀ hands : List (List Nat), (l.foldl (dealStep n) hands).length = hands.length := by
  induction l with
  | nil => intro hands; rfl
  | cons ic l ih =>
    intro hands
    rw [List.foldl_cons, ih, dealStep_length]

theorem getD_list_set_self (l : List (List Nat)) (i : Nat) (v : List Nat)
    (h : i < l.length) : (l.set i v).getD i [] = v := by
  induction l generalizing i with
  | nil => simp at h
  | cons a t ih =>
    cases i with
    | zero => rfl
    | succ i => exact ih i (by simpa using h)

theorem getD_list_set_ne (l : List (List Nat)) (i j : Nat) (v : List Nat)
    (h : i ≠ j) : (l.set i v).getD j [] = l.getD j [] := by
  induction l generalizing i j with
  | nil => simp
  | cons a t ih =>
    cases i with
    | zero => cases j with
      | zero => exact absurd rfl h
      | succ j => rfl
    | succ i =>
      cases j with
      | zero => rfl
      | succ j => exact ih i j (by omega)

/-- Appending one card to the hand at position `q` adds that card, up to
permutation, to the flattened hands. -/
theorem flatten_set_perm (hands : List (List Nat)) (q : Nat) (a : Nat)
    (hq : q < hands.length) :
    ((hands.set q (hands.getD q [] ++ [a])).flatten).Perm (a :: hands.flatten) := by
  induction hands generalizing q with
  | nil => simp at hq
  | cons h t ih =>
    cases q with
    | zero =>
      simp only [List.getD_cons_zero, List.set_cons_zero, List.flatten_cons,
        List.append_assoc, List.singleton_append]
      exact List.perm_middle
    | succ q =>
      have hq' : q < t.length := by simpa using hq
      simp only [List.getD_cons_succ, List.set_cons_succ, List.flatten_cons]
      exact ((ih q hq').append_left h).trans List.perm_middle

/-- Folding the deal step over a list of enumerated cards appends, up to
permutation, exactly those cards to the flattened hands. -/
theorem foldl_dealStep_flatten_perm (n : Nat) (hn : 0 < n) (l : List (Nat × Nat)) :
    ∀ hands : List (List Nat), hands.length = n →
      ((l.foldl (dealStep n) hands).flatten).Perm (l.map Prod.snd ++ hands.flatten) := by
  induction l with
  | nil => intro hands _; simp
  | cons ic l ih =>
    intro hands hlen
    have hq : ic.1 % n < hands.length := by rw [hlen]; exact Nat.mod_lt _ hn
    have hstep : (dealStep n hands ic).length = n := by rw [dealStep_length, hlen]
    have h1 := ih (dealStep n hands ic) hstep
    have h2 : ((dealStep n hands ic).flatten).Perm (ic.2 :: hands.flatten) :=
      flatten_set_perm hands (ic.1 % n) ic.2 hq
    rw [List.foldl_cons]
    refine (h1.trans (h2.append_left (l.map Prod.snd))).trans ?_
    simp only [List.map_cons]
    exact List.perm_middle

/-- The flattened dealt hands are a permutation of the dealt prefix of the
deck. -/
theorem distribute_cards_flatten_perm (deck : List Nat) (n c : Nat) (hn : 0 < n) :
    ((distribute_cards deck n c).flatten).Perm (deck.take (n * c)) := by
  have h := foldl_dealStep_flatten_perm n hn ((deck.take (n * c)).enum)
    (List.replicate n []) (by simp)
  simpa [distribute_cards, List.enum_map_snd] using h

theorem getD_replicate_nil : ∀ (n p : Nat),
    (List.replicate n ([] : List Nat)).getD p [] = [] := by
  intro n
  induction n with
  | zero => intro p; cases p <;> rfl
  | succ n ih =>
    intro p
    cases p with
    | zero => rfl
    | succ p => exact ih p

/-- The hand at position `p` after the deal fold is the original hand followed
by the cards whose position index is congruent to `p` modulo the player
count. -/
theorem foldl_dealStep_getD (n : Nat) (l : List (Nat × Nat)) :
    ∀ (hands : List (List Nat)), hands.length = n → ∀ p, p < n →
      (l.foldl (dealStep n) hands).getD p []
        = hands.getD p [] ++ (l.filter (fun ic => ic.1 % n == p)).map Prod.snd := by
  induction l with
  | nil => intro hands _ p _; simp
  | cons ic l ih =>
    intro hands hlen p hp
    rw [List.foldl_cons]
    have hstep : (dealStep n hands ic).length = n := by rw [dealStep_length, hlen]
    rw [ih _ hstep p hp]
    by_cases hcase : ic.1 % n = p
    · have hset : (dealStep n hands ic).getD p [] = hands.getD p [] ++ [ic.2] := by
        simp only [dealStep, hcase]
        exact getD_list_set_self hands p _ (by rw [hlen]; exact hp)
      rw [hset, List.filter_cons]
      simp [hcase, List.append_assoc]
    · have hset : (dealStep n hands ic).getD p [] = hands.getD p [] := by
        simp only [dealStep]
        exact getD_list_set_ne hands (ic.1 % n) p _ hcase
      rw [hset, List.filter_cons]
      simp [hcase]

/-- Counting enumerated pairs by a predicate on the index is counting the
index range by that predicate. -/
theorem countP_enumFrom_fst (n p : Nat) (xs : List Nat) :
    ∀ k, ((xs.enumFrom k).countP (fun ic => ic.1 % n == p))
      = ((List.range' k xs.length).countP (fun i => i % n == p)) := by
  induction xs with
  | nil => intro k; rfl
  | cons x xs ih =>
    intro k
    simp only [List.enumFrom, List.length_cons, List.range', List.countP_cons, ih (k + 1)]

theorem countP_range'_block (n p a : Nat) (hp : p < n) (ha : a % n = 0) :
    (List.range' a n).countP (fun i => i % n == p) = 1 := by
  rw [List.range'_eq_map_range, List.countP_map]
  obtain ⟨k, hk⟩ := Nat.dvd_of_mod_eq_zero ha
  have hcongr : ∀ x ∈ List.range n,
      (((fun i => i % n == p) ∘ (a + ·)) x) ↔ ((x == p) = true) := by
    intro x hx
    have hx' : x < n := List.mem_range.mp hx
    have hmod : (a + x) % n = x := by
      rw [hk, Nat.mul_add_mod, Nat.mod_eq_of_lt hx']
    simp only [Function.comp_apply, hmod]
  rw [List.countP_congr hcongr]
  exact List.count_eq_one_of_mem (List.nodup_range n) (List.mem_range.mpr hp)

theorem countP_range'_mod (n p : Nat) (hp : p < n) :
    ∀ (c a : Nat), a % n = 0 →
      ((List.range' a (n * c)).countP (fun i => i % n == p)) = c := by
  intro c
  induction c with
  | zero => intro a _; simp
  | succ c ih =>
    intro a ha
    have hsplit : List.range' a n ++ List.range' (a + n) (n * c)
        = List.range' a (n * (c + 1)) := by
      rw [List.range'_append_1, Nat.mul_succ, Nat.add_comm]
    have htail : (a + n) % n = 0 := by
      simp [Nat.add_mod, ha]
    rw [← hsplit, List.countP_append, countP_range'_block n p a hp ha, ih _ htail,
      Nat.add_comm]

/-- Each dealt hand has exactly `cards_per_player` cards. -/
theorem distribute_cards_hand_length (deck : List Nat) (n c : Nat)
    (hdeck : n * c ≤ deck.length) (p : Nat) (hp : p < n) :
    ((distribute_cards deck n c).getD p []).length = c := by
  unfold distribute_cards
  rw [foldl_dealStep_getD n _ _ (by simp) p hp, getD_replicate_nil, List.nil_append,
    List.length_map, ← List.countP_eq_length_filter]
  have henum : (deck.take (n * c)).enum = (deck.take (n * c)).enumFrom 0 := rfl
  rw [henum, countP_enumFrom_fst, List.length_take, Nat.min_eq_left hdeck]
  exact countP_range'_mod n p hp c 0 (Nat.zero_mod n)

theorem distribute_cards_length (deck : List Nat) (n c : Nat) :
    (distribute_cards deck n c).length = n := by
  unfold distribute_cards
  rw [foldl_dealStep_length, List.length_replicate]

/-! ## Claims C7 and C9 -/

/-- C7: for every valid input (`num_players ∈ [1,10]`,
`cards_per_player ∈ [1,20]`, `num_players * cards_per_player < 108`) and
every seed (abstracted as the generator's index choices `rng`),
`perform_shuffle` succeeds and the outcome stored as the Ready payload has
exactly `num_players` hands of exactly `cards_per_player` cards each, a draw
pile of exactly `108 - num_players * cards_per_player` cards, and an empty
discard pile. -/
theorem perform_shuffle_ready_payload_shape (n c : Nat) (rng : Nat → Nat)
    (v rid : Nat) (cid : String)
    (hn1 : 1 ≤ n) (hn2 : n ≤ 10) (hc1 : 1 ≤ c) (hc2 : c ≤ 20)
    (hnc : n * c < 108) :
    ∃ o : ShuffleOutcome, perform_shuffle n c rng = .ok o
      ∧ o.player_hands.length = n
      ∧ (∀ h ∈ o.player_hands, h.length = c)
      ∧ o.draw_pile.length = 108 - n * c
      ∧ (finalize_game_state o v rid cid).discard_pile = [] := by
  have hval : validate_game_params n c = .ok () :=
    (validate_game_params_ok_iff n c).mpr
      ⟨hn1, hn2, hc1, hc2, by simp only [DECK_SIZE]; exact hnc⟩
  have hdecklen : (shuffle_deck (List.range DECK_SIZE) rng).length = 108 := by
    rw [shuffle_deck_length, List.length_range]; rfl
  refine ⟨_, by rw [perform_shuffle, hval], ?_, ?_, ?_, rfl⟩
  · exact distribute_cards_length _ n c
  · intro h hmem
    obtain ⟨i, hi, hget⟩ := List.mem_iff_getElem.mp hmem
    have hi' : i < n := by rwa [distribute_cards_length] at hi
    have hgetD := List.getD_eq_getElem
      (distribute_cards (shuffle_deck (List.range DECK_SIZE) rng) n c) [] hi
    rw [← hget, ← hgetD]
    exact distribute_cards_hand_length _ n c (by omega) i hi'
  · rw [List.length_drop, hdecklen]

/-- C9: for every input accepted by `validate_game_params` and every seed,
the concatenation of the dealt hands followed by the draw pile is a
permutation of the full deck `0..107`. -/
theorem perform_shuffle_is_permutation (n c : Nat) (rng : Nat → Nat)
    (hval : validate_game_params n c = .ok ()) :
    ∃ o : ShuffleOutcome, perform_shuffle n c rng = .ok o
      ∧ (o.player_hands.flatten ++ o.draw_pile).Perm (List.range 108) := by
  have hn : 0 < n := ((validate_game_params_ok_iff n c).mp hval).1
  refine ⟨_, by rw [perform_shuffle, hval], ?_⟩
  have h1 := (distribute_cards_flatten_perm
    (shuffle_deck (List.range DECK_SIZE) rng) n c hn).append_right
    ((shuffle_deck (List.range DECK_SIZE) rng).drop (n * c))
  rw [List.take_append_drop] at h1
  exact h1.trans (shuffle_deck_perm (List.range DECK_SIZE) rng)

/-- Witness for C7 at the spec's end-to-end example `(4, 7)`. -/
theorem perform_shuffle_ready_payload_shape_witness :
    (1 ≤ 4 ∧ 4 ≤ 10 ∧ 1 ≤ 7 ∧ 7 ≤ 20 ∧ 4 * 7 < 108)
      ∧ ∃ o : ShuffleOutcome, perform_shuffle 4 7 (fun _ => 0) = .ok o
        ∧ o.player_hands.length = 4
        ∧ (∀ h ∈ o.player_hands, h.length = 7)
        ∧ o.draw_pile.length = 108 - 4 * 7
        ∧ (finalize_game_state o 5 9 "cid").discard_pile = [] :=
  ⟨by decide, perform_shuffle_ready_payload_shape 4 7 (fun _ => 0) 5 9 "cid"
    (by decide) (by decide) (by decide) (by decide) (by decide)⟩

/-- Witness for C9 at `(4, 7)`. -/
theorem perform_shuffle_is_permutation_witness :
    validate_game_params 4 7 = .ok ()
      ∧ ∃ o : ShuffleOutcome, perform_shuffle 4 7 (fun _ => 0) = .ok o
        ∧ (o.player_hands.flatten ++ o.draw_pile).Perm (List.range 108) :=
  ⟨rfl, perform_shuffle_is_permutation 4 7 (fun _ => 0) rfl⟩

theorem sum_map_length_set (hands : List (List Nat)) (p : Nat) (v : List Nat)
    (hp : p < hands.length) :
    ((hands.set p v).map List.length).sum + (hands.getD p []).length
      = (hands.map List.length).sum + v.length := by
  induction hands generalizing p with
  | nil => simp at hp
  | cons h t ih =>
    cases p with
    | zero => simp [Nat.add_comm, Nat.add_assoc, Nat.add_left_comm]
    | succ p =>
      have hp' : p < t.length := by simpa using hp
      have := ih p hp'
      simp only [List.set_cons_succ, List.map_cons, List.sum_cons,
        List.getD_cons_succ]
      omega

theorem draw_card_error_state (gs : GameState) (pid : Nat) (rng : Nat → Nat)
    (e : String) (gs' : GameState)
    (h : draw_card gs pid rng = (.error e, gs')) : gs' = gs := by
  by_cases h1 : is_initialized gs
  · by_cases h2 : is_valid_player gs pid
    · by_cases h3 : gs.draw_pile.isEmpty
      · by_cases h4 : gs.discard_pile.length ≤ 1
        · simp only [draw_card, h1, h2, h3, h4] at h
          simp at h
          exact h.2.symm
        · have hne : gs.discard_pile.length ≥ 2 := by omega
          have hd : gs.draw_pile = [] := List.isEmpty_iff.mp h3
          have hlen : (shuffle_deck (gs.draw_pile ++ gs.discard_pile.dropLast) rng).length
              = gs.discard_pile.length - 1 := by
            rw [shuffle_deck_length, hd, List.nil_append, List.length_dropLast]
          have hsome : (shuffle_deck (gs.draw_pile ++ gs.discard_pile.dropLast) rng) ≠ [] := by
            intro hnil
            rw [hnil] at hlen
            simp at hlen
            omega
          obtain ⟨card, hcard⟩ :=
            Option.isSome_iff_exists.mp (List.getLast?_isSome.mpr hsome)
          simp only [draw_card, h1, h2, h3, h4, hcard] at h
          simp [hcard] at h
      · have hne : gs.draw_pile ≠ [] := by simpa using h3
        obtain ⟨card, hcard⟩ :=
          Option.isSome_iff_exists.mp (List.getLast?_isSome.mpr hne)
        simp only [draw_card, h1, h2, h3] at h
        simp [hcard] at h
    · simp only [draw_card, h1, h2] at h
      simp at h
      exact h.2.symm
  · simp only [draw_card, h1] at h
    simp at h
    exact h.2.symm

theorem draw_card_ok_state (gs : GameState) (pid : Nat) (rng : Nat → Nat)
    (card : Nat) (gs' : GameState)
    (h : draw_card gs pid rng = (.ok card, gs')) :
    total_cards gs' = total_cards gs
    ∧ (gs'.player_hands.getD pid []).length
        = (gs.player_hands.getD pid []).length + 1
    ∧ (∀ q, q ≠ pid → gs'.player_hands.getD q [] = gs.player_hands.getD q []) := by
  have hgs : gs' = (draw_card gs pid rng).2 := by rw [h]
  by_cases h1 : is_initialized gs
  · by_cases h2 : is_valid_player gs pid
    · have hpid : pid < gs.player_hands.length := by simpa [is_valid_player] using h2
      by_cases h3 : gs.draw_pile.isEmpty
      · by_cases h4 : gs.discard_pile.length ≤ 1
        · simp only [draw_card, h1, h2, h3, h4] at h; simp at h
        · have hge : gs.discard_pile.length ≥ 2 := by omega
          have hd : gs.draw_pile = [] := List.isEmpty_iff.mp h3
          have hlen : (shuffle_deck (gs.draw_pile ++ gs.discard_pile.dropLast) rng).length
              = gs.discard_pile.length - 1 := by
            rw [shuffle_deck_length, hd, List.nil_append, List.length_dropLast]
          have hne : (shuffle_deck (gs.draw_pile ++ gs.discard_pile.dropLast) rng) ≠ [] := by
            intro hnil
            rw [hnil] at hlen
            simp at hlen
            omega
          obtain ⟨c0, hc0⟩ :=
            Option.isSome_iff_exists.mp (List.getLast?_isSome.mpr hne)
          subst hgs
          simp [draw_card, h1, h2, h3, h4, hc0]
          simp only [← List.getD_eq_getElem?_getD]
          have hsum := sum_map_length_set gs.player_hands pid
            ((gs.player_hands.getD pid []) ++ [c0]) hpid
          simp only [List.length_append, List.length_cons, List.length_nil] at hsum
          refine ⟨?_, ?_, ?_⟩
          · simp only [total_cards, List.length_dropLast, List.length_cons,
              List.length_nil, hlen]
            have hdlen : gs.draw_pile.length = 0 := by rw [hd]; rfl
            omega
          · rw [getD_list_set_self _ _ _ hpid, List.length_append]
            rfl
          · intro q hq
            exact getD_list_set_ne _ _ _ _ (fun hpq => hq hpq.symm)
      · have hne : gs.draw_pile ≠ [] := by simpa using h3
        have hpos : 0 < gs.draw_pile.length := List.length_pos.mpr hne
        obtain ⟨c0, hc0⟩ :=
          Option.isSome_iff_exists.mp (List.getLast?_isSome.mpr hne)
        subst hgs
        simp [draw_card, h1, h2, h3, hc0]
        simp only [← List.getD_eq_getElem?_getD]
        have hsum := sum_map_length_set gs.player_hands pid
          ((gs.player_hands.getD pid []) ++ [c0]) hpid
        simp only [List.length_append, List.length_cons, List.length_nil] at hsum
        refine ⟨?_, ?_, ?_⟩
        · simp only [total_cards, List.length_dropLast]
          omega
        · rw [getD_list_set_self _ _ _ hpid, List.length_append]
          rfl
        · intro q hq
          exact getD_list_set_ne _ _ _ _ (fun hpq => hq hpq.symm)
    · simp only [draw_card, h1, h2] at h; simp at h
  · simp only [draw_card, h1] at h; simp at h

theorem play_card_error_state (gs : GameState) (pid idx : Nat) (e : String)
    (gs' : GameState) (h : play_card gs pid idx = (.error e, gs')) : gs' = gs := by
  simp only [play_card] at h
  split at h
  · injection h with h1 h2; exact h2.symm
  · split at h
    · injection h with h1 h2; exact h2.symm
    · split at h
      · injection h with h1 h2; exact h2.symm
      · injection h with h1 h2; exact Except.noConfusion h1

theorem play_card_ok_state (gs : GameState) (pid idx : Nat) (card : Nat)
    (gs' : GameState) (h : play_card gs pid idx = (.ok card, gs')) :
    total_cards gs' = total_cards gs
    ∧ (gs'.player_hands.getD pid []).length + 1
        = (gs.player_hands.getD pid []).length
    ∧ gs'.discard_pile = gs.discard_pile ++ [card] := by
  simp only [play_card] at h
  split at h
  · injection h with h1 h2; exact Except.noConfusion h1
  · split at h
    · injection h with h1 h2; exact Except.noConfusion h1
    · rename_i h2
      split at h
      · injection h with h1 h2; exact Except.noConfusion h1
      · rename_i h3
        have hpid : pid < gs.player_hands.length := by
          simp [is_valid_player] at h2
          exact h2
        have hidx : idx < (gs.player_hands.getD pid []).length := by omega
        injection h with hcard hstate
        injection hcard with hcard
        subst hstate
        subst hcard
        have hsum := sum_map_length_set gs.player_hands pid
          ((gs.player_hands.getD pid []).eraseIdx idx) hpid
        have herase := List.length_eraseIdx_of_lt hidx
        refine ⟨?_, ?_, rfl⟩
        · simp only [total_cards, List.length_append, List.length_cons,
            List.length_nil]
          omega
        · rw [getD_list_set_self _ _ _ hpid, herase]
          omega

/-- C10: a successful `draw_card` and a successful `play_card` each preserve
the total number of cards in circulation as computed by `total_cards`;
`draw_card` moves exactly one card into the drawing player's hand (leaving
the other hands untouched, reshuffling the discard pile minus its top card
into the draw pile when the draw pile is empty), `play_card` moves exactly
one card from the player's hand to the top of the discard pile, and when
either operation returns an error the game state is unchanged. -/
theorem draw_play_conservation (gs : GameState) (pid idx : Nat)
    (rng : Nat → Nat) :
    (∀ card gs', draw_card gs pid rng = (.ok card, gs') →
        total_cards gs' = total_cards gs
        ∧ (gs'.player_hands.getD pid []).length
            = (gs.player_hands.getD pid []).length + 1
        ∧ ∀ q, q ≠ pid → gs'.player_hands.getD q [] = gs.player_hands.getD q [])
    ∧ (∀ e gs', draw_card gs pid rng = (.error e, gs') → gs' = gs)
    ∧ (∀ card gs', play_card gs pid idx = (.ok card, gs') →
        total_cards gs' = total_cards gs
        ∧ (gs'.player_hands.getD pid []).length + 1
            = (gs.player_hands.getD pid []).length
        ∧ gs'.discard_pile = gs.discard_pile ++ [card])
    ∧ (∀ e gs', play_card gs pid idx = (.error e, gs') → gs' = gs) :=
  ⟨fun card gs' h => draw_card_ok_state gs pid rng card gs' h,
   fun e gs' h => draw_card_error_state gs pid rng e gs' h,
   fun card gs' h => play_card_ok_state gs pid idx card gs' h,
   fun e gs' h => play_card_error_state gs pid idx e gs' h⟩

/-- Witness for C10 on `exampleGameState`. -/
theorem draw_play_conservation_witness :
    total_cards exampleDrawResult = total_cards exampleGameState
    ∧ examplePlayResult.discard_pile = exampleGameState.discard_pile ++ [2] :=
  ⟨((draw_play_conservation exampleGameState 0 1 (fun _ => 0)).1
      6 exampleDrawResult rfl).1,
   ((draw_play_conservation exampleGameState 0 1 (fun _ => 0)).2.2.1
      2 examplePlayResult rfl).2.2⟩

/-! ## Claims C4, C5 and C6 -/

/-- C5: if the historical-log query already contains a fulfillment event,
`get_randomness` returns the first event's value immediately; the result
does not depend on (the waiters are not engaged) the subscription outcome or
the poll answers, which are universally quantified. -/
theorem get_randomness_missed_event (v : Nat) (rest : List Nat)
    (ws : WsOutcome) (poll : Nat → Except Unit Nat) (timeout_secs : Nat) :
    get_randomness ⟨.ok (v :: rest), ws, poll⟩ timeout_secs = .ok v := rfl

/-- C4 counterexample: a fulfillment event carrying the sentinel value `0`
found by the missed-event check is returned as the resolved random value —
`get_randomness` does not filter the sentinel on the event paths, only in
the poll loop. -/
theorem get_randomness_returns_sentinel_counterexample :
    get_randomness ⟨.ok [0], .timedOut, fun _ => .error ()⟩ 10 = .ok 0 := rfl

/-- C4 (amended): the polling waiter never returns the sentinel zero — a
zero poll answer is treated as "not yet answered" and polling continues —
and `get_randomness` can return zero only when a fulfillment event carrying
zero is delivered by the historical-log check or by the subscription, which
return event values unfiltered. -/
theorem get_randomness_sentinel_policy (b : OracleBehaviour) (t : Nat) :
    (∀ a r v, pollLoop b.pollAnswers a r = some v → v ≠ 0)
    ∧ (get_randomness b t = .ok 0 →
        (∃ rest, b.historicalLogs = .ok (0 :: rest)) ∨ b.wsOutcome = .value 0) := by
  have hpoll : ∀ r a v, pollLoop b.pollAnswers a r = some v → v ≠ 0 := by
    intro r
    induction r with
    | zero => intro a v h; exact absurd h (by simp [pollLoop])
    | succ r ih =>
      intro a v h
      rw [pollLoop] at h
      revert h
      match b.pollAnswers a with
      | .error _ => exact ih (a + 1) v
      | .ok w =>
        show (if w ≠ 0 then some w else pollLoop b.pollAnswers (a + 1) r)
            = some v → v ≠ 0
        by_cases hw : w ≠ 0
        · rw [if_pos hw]
          intro h
          cases h
          exact hw
        · rw [if_neg hw]
          exact ih (a + 1) v
  refine ⟨fun a r v h => hpoll r a v h, ?_⟩
  intro h
  unfold get_randomness at h
  revert h
  match hlog : b.historicalLogs with
  | .error e => simp [check_for_missed_event]
  | .ok [] =>
    simp only [check_for_missed_event, List.head?]
    match hws : b.wsOutcome with
    | .value v =>
      intro h
      cases h
      exact Or.inr rfl
    | .wsError =>
      intro h
      revert h
      match hp : poll_random_words_http b.pollAnswers (max (t / 3) 5) with
      | some v =>
        intro h
        cases h
        exact absurd rfl (hpoll _ _ _ hp)
      | none => intro h; cases h
    | .timedOut =>
      intro h
      revert h
      match hp : poll_random_words_http b.pollAnswers (max (t / 3) 5) with
      | some v =>
        intro h
        cases h
        exact absurd rfl (hpoll _ _ _ hp)
      | none => intro h; cases h
  | .ok (x :: rest) =>
    simp only [check_for_missed_event, List.head?]
    intro h
    cases h
    exact Or.inl ⟨rest, rfl⟩

/-- Witness for the C4 amended theorem: the poll part at a constant non-zero
answer, and the event part at a behaviour whose log already carries `0`. -/
theorem get_randomness_sentinel_policy_witness :
    (7 : Nat) ≠ 0
    ∧ ((∃ rest, (OracleBehaviour.mk (.ok [0]) .timedOut
          (fun _ => .error ())).historicalLogs = .ok (0 :: rest))
        ∨ (OracleBehaviour.mk (.ok [0]) .timedOut
          (fun _ => .error ())).wsOutcome = .value 0) :=
  ⟨(get_randomness_sentinel_policy
      ⟨.ok [], .timedOut, fun _ => .ok 7⟩ 0).1 1 1 7 rfl,
   (get_randomness_sentinel_policy
      ⟨.ok [0], .timedOut, fun _ => .error ()⟩ 10).2 rfl⟩

/-- If calls `a, a+1, …, a+k-1` fail and call `a+k` succeeds with `k` within
the remaining retry budget, the loop returns that success after exactly
`a + k + 1` calls. -/
theorem uploadLoop_first_success :
    ∀ (k r a : Nat) (outcomes : Nat → Except IpfsError String) (cid : String),
      k ≤ r →
      (∀ j, j < k → ∃ e, outcomes (a + j) = .error e) →
      outcomes (a + k) = .ok cid →
      uploadLoop outcomes a r = (.ok cid, a + k + 1) := by
  intro k
  induction k with
  | zero =>
    intro r a outcomes cid _ _ hok
    rw [Nat.add_zero] at hok
    cases r with
    | zero => rw [uploadLoop, hok]
    | succ r => rw [uploadLoop, hok]
  | succ k ih =>
    intro r a outcomes cid hkr hfail hok
    obtain ⟨r', rfl⟩ : ∃ r', r = r' + 1 := ⟨r - 1, by omega⟩
    obtain ⟨e, he⟩ := hfail 0 (Nat.succ_pos k)
    rw [Nat.add_zero] at he
    rw [uploadLoop, he]
    have h1 : ∀ j, j < k → ∃ e, outcomes (a + 1 + j) = .error e := by
      intro j hj
      have := hfail (j + 1) (by omega)
      rwa [show a + (j + 1) = a + 1 + j by omega] at this
    have h2 : outcomes (a + 1 + k) = .ok cid := by
      rwa [show a + 1 + k = a + (k + 1) by omega]
    have := ih r' (a + 1) outcomes cid (by omega) h1 h2
    rwa [show a + 1 + k + 1 = a + (k + 1) + 1 by omega] at this

/-- If calls `a, …, a+r` all fail, the loop returns the error of the last
call, `a + r`, after exactly `a + r + 1` calls. -/
theorem uploadLoop_all_fail :
    ∀ (r a : Nat) (outcomes : Nat → Except IpfsError String),
      (∀ j, j ≤ r → ∃ e, outcomes (a + j) = .error e) →
      ∃ e, outcomes (a + r) = .error e
        ∧ uploadLoop outcomes a r = (.error e, a + r + 1) := by
  intro r
  induction r with
  | zero =>
    intro a outcomes hfail
    obtain ⟨e, he⟩ := hfail 0 (Nat.le_refl 0)
    rw [Nat.add_zero] at he
    exact ⟨e, by rw [Nat.add_zero]; exact he, by rw [uploadLoop, he]⟩
  | succ r ih =>
    intro a outcomes hfail
    obtain ⟨e0, he0⟩ := hfail 0 (Nat.zero_le _)
    rw [Nat.add_zero] at he0
    have h1 : ∀ j, j ≤ r → ∃ e, outcomes (a + 1 + j) = .error e := by
      intro j hj
      have := hfail (j + 1) (by omega)
      rwa [show a + (j + 1) = a + 1 + j by omega] at this
    obtain ⟨e, he, hloop⟩ := ih (a + 1) outcomes h1
    refine ⟨e, ?_, ?_⟩
    · rwa [show a + (r + 1) = a + 1 + r by omega]
    · rw [uploadLoop, he0, hloop, show a + 1 + r + 1 = a + (r + 1) + 1 by omega]

/-- C6 counterexample: a store that always fails with a configuration error
is attempted 4 times by `upload_with_retry` under the default configuration
(`max_retries = 3`), not exactly once — the retry loop does not distinguish
error kinds. -/
theorem upload_with_retry_config_error_counterexample :
    (upload_with_retry (fun _ => .error (.ConfigError "Missing credentials"))
        IpfsUploadConfig.rustDefault).2 = 4
    ∧ (4 : Nat) ≠ 1 :=
  ⟨rfl, by decide⟩

/-- C6 (amended): under the default configuration, `upload_with_retry`
retries any failed store call — regardless of the error's kind,
configuration errors included — up to `max_retries = 3` additional attempts
(at most 4 calls), returns success as soon as an attempt succeeds, and when
all 4 attempts fail returns the error of the last attempt.  Only a
missing-credentials `ConfigError` raised by `IpfsProvider::from_env`, before
the service is built, leads to no attempt at all. -/
theorem upload_with_retry_policy :
    (∀ (outcomes : Nat → Except IpfsError String) (k : Nat) (cid : String),
        k ≤ 3 → (∀ j, j < k → ∃ e, outcomes j = .error e) →
        outcomes k = .ok cid →
        upload_with_retry outcomes IpfsUploadConfig.rustDefault = (.ok cid, k + 1))
    ∧ (∀ (outcomes : Nat → Except IpfsError String) (e3 : IpfsError),
        (∀ j, j ≤ 3 → ∃ e, outcomes j = .error e) → outcomes 3 = .error e3 →
        upload_with_retry outcomes IpfsUploadConfig.rustDefault = (.error e3, 4))
    ∧ IpfsProvider.from_env none (some "secret")
        = .error (.ConfigError "Missing environment variables")
    ∧ IpfsProvider.from_env (some "key") none
        = .error (.ConfigError "Missing environment variables") := by
  refine ⟨?_, ?_, rfl, rfl⟩
  · intro outcomes k cid hk hfail hok
    have := uploadLoop_first_success k 3 0 outcomes cid hk
      (by intro j hj; simpa using hfail j hj) (by simpa using hok)
    simpa [upload_with_retry, IpfsUploadConfig.rustDefault] using this
  · intro outcomes e3 hfail h3
    obtain ⟨e, he, hloop⟩ := uploadLoop_all_fail 3 0 outcomes
      (by intro j hj; simpa using hfail j hj)
    rw [Nat.zero_add] at he
    rw [he] at h3
    injection h3 with h3
    subst h3
    simpa [upload_with_retry, IpfsUploadConfig.rustDefault] using hloop

/-- Witness for C6: a store failing twice with a transient error then
succeeding returns success after exactly 3 calls (2 retries), and a store
failing on all 4 calls surfaces the last error. -/
theorem upload_with_retry_policy_witness :
    upload_with_retry
        (fun j => if j < 2 then .error (.NetworkError "net") else .ok "cid")
        IpfsUploadConfig.rustDefault = (.ok "cid", 3)
    ∧ upload_with_retry (fun _ => .error (.UploadFailed "u"))
        IpfsUploadConfig.rustDefault = (.error (.UploadFailed "u"), 4) :=
  ⟨upload_with_retry_policy.1
      (fun j => if j < 2 then .error (.NetworkError "net") else .ok "cid")
      2 "cid" (by decide)
      (fun j hj => ⟨.NetworkError "net", by simp [hj]⟩) rfl,
   upload_with_retry_policy.2.1 (fun _ => .error (.UploadFailed "u"))
      (.UploadFailed "u") (fun j _ => ⟨.UploadFailed "u", rfl⟩) rfl⟩

theorem sessionInv_step (s s' : SessionState) (e : OrchEvent)
    (hs : SessionInv s) (h : Step s e s') : SessionInv s' := by
  cases h <;> simp_all [SessionInv]

theorem reachable_inv (s : SessionState) (h : Reachable s) : SessionInv s := by
  induction h with
  | refl => simp [SessionInv, initSession]
  | tail _ hstep ih =>
    obtain ⟨e, he⟩ := hstep
    exact sessionInv_step _ _ e ih he

theorem reachable_wfv0 : Reachable ⟨.WaitingForVRF, false, 0, 0, 0⟩ :=
  Relation.ReflTransGen.tail Relation.ReflTransGen.refl
    ⟨.vrfOk, Step.vrfOk .Requesting 0 0 0⟩

/-- Any number of simultaneous in-flight finalize attempts is reachable: the
tick filter only looks at the status, which stays `WaitingForVRF` while the
attempts are polling. -/
theorem reachable_wfv_waiting (k : Nat) :
    Reachable ⟨.WaitingForVRF, false, 0, k, 0⟩ := by
  induction k with
  | zero => exact reachable_wfv0
  | succ k ih =>
    exact Relation.ReflTransGen.tail
      (Relation.ReflTransGen.tail ih
        ⟨.tickSnapshot, Step.tickSnapshot false 0 k 0⟩)
      ⟨.spawnAttempt, Step.spawnAttempt .WaitingForVRF false 0 k 0⟩

theorem reachable_gp_finalizing : Reachable ⟨.GeneratingProof, false, 0, 0, 1⟩ :=
  Relation.ReflTransGen.tail (reachable_wfv_waiting 1)
    ⟨.attemptRandom, Step.attemptRandom .WaitingForVRF false 0 0 0⟩

theorem reachable_ready_one_waiting : Reachable ⟨.Ready, false, 0, 1, 0⟩ :=
  Relation.ReflTransGen.tail
    (Relation.ReflTransGen.tail (reachable_wfv_waiting 2)
      ⟨.attemptRandom, Step.attemptRandom .WaitingForVRF false 0 1 0⟩)
    ⟨.finalizeOk, Step.finalizeOk .GeneratingProof false 0 1 0⟩

/-! ## Claims C1, C2, C8 -/

/-- C1 counterexample: a session can reach `Ready` while a second concurrent
finalize attempt is still polling; when that attempt obtains the randomness
it writes `GeneratingProof` over `Ready` — the status regresses, so `Ready`
is not terminal. -/
theorem ready_overwritten_counterexample :
    Reachable ⟨.Ready, false, 0, 1, 0⟩
    ∧ Step ⟨.Ready, false, 0, 1, 0⟩ .attemptRandom
        ⟨.GeneratingProof, false, 0, 0, 1⟩
    ∧ statusRank .GeneratingProof < statusRank .Ready :=
  ⟨reachable_ready_one_waiting,
   Step.attemptRandom .Ready false 0 0 0,
   by decide⟩

/-- C1 (amended): every step of a reachable session either leaves the status
unchanged or moves it strictly forward along
`Requesting → WaitingForVRF → GeneratingProof → Ready` (with `Failed`
above every non-terminal status), except that a concurrent duplicate
finalize attempt that obtains the randomness overwrites `Ready` with
`GeneratingProof`.  `Failed` is only ever entered from `Requesting` (the
VRF-request failure path) and is terminal; `Ready` is not. -/
theorem status_forward_except_duplicate_finalize :
    (∀ s e s', Reachable s → Step s e s' →
        s'.status = s.status
        ∨ statusRank s.status < statusRank s'.status
        ∨ (s.status = .Ready ∧ s'.status = .GeneratingProof
            ∧ e = .attemptRandom))
    ∧ (∀ s e s' r, Reachable s → Step s e s' → s'.status = .Failed r →
        s.status = .Requesting)
    ∧ (∀ s r, Reachable s → s.status = .Failed r → ∀ e s', ¬ Step s e s') := by
  refine ⟨?_, ?_, ?_⟩
  · intro s e s' hr hst
    have hinv := reachable_inv s hr
    cases hst with
    | vrfOk st ps w f =>
      have := (hinv.1 rfl).1
      subst this
      exact Or.inr (Or.inl (by simp [statusRank]))
    | vrfErr st ps w f r =>
      have := (hinv.1 rfl).1
      subst this
      exact Or.inr (Or.inl (by simp [statusRank]))
    | tickSnapshot p ps w f => exact Or.inl rfl
    | spawnAttempt st p ps w f => exact Or.inl rfl
    | attemptTimeout st p ps w f => exact Or.inl rfl
    | attemptRandom st p ps w f =>
      cases st with
      | Requesting => exact absurd (hinv.2.1 rfl).2.1 (by simp)
      | WaitingForVRF => exact Or.inr (Or.inl (by simp [statusRank]))
      | GeneratingProof => exact Or.inl rfl
      | Ready => exact Or.inr (Or.inr ⟨rfl, rfl, rfl⟩)
      | Failed r => exact absurd (hinv.2.2.1 r rfl).2.1 (by simp)
    | finalizeOk st p ps w f =>
      cases st with
      | Requesting => exact absurd (hinv.2.1 rfl).2.2 (by simp)
      | WaitingForVRF => exact absurd (hinv.2.2.2 rfl) (by simp)
      | GeneratingProof => exact Or.inr (Or.inl (by simp [statusRank]))
      | Ready => exact Or.inl rfl
      | Failed r => exact absurd (hinv.2.2.1 r rfl).2.2 (by simp)
    | finalizeErr st p ps w f r => exact Or.inl rfl
  · intro s e s' r hr hst hfail
    have hinv := reachable_inv s hr
    cases hst with
    | vrfOk st ps w f => exact absurd hfail (by simp)
    | vrfErr st ps w f r' =>
      exact (hinv.1 rfl).1
    | tickSnapshot p ps w f => exact absurd hfail (by simp)
    | spawnAttempt st p ps w f =>
      exact absurd (hinv.2.2.1 r hfail).1 (by simp)
    | attemptTimeout st p ps w f =>
      exact absurd (hinv.2.2.1 r hfail).2.1 (by simp)
    | attemptRandom st p ps w f => exact absurd hfail (by simp)
    | finalizeOk st p ps w f => exact absurd hfail (by simp)
    | finalizeErr st p ps w f r' =>
      exact absurd (hinv.2.2.1 r hfail).2.2 (by simp)
  · intro s r hr hfail e s' hst
    have hinv := reachable_inv s hr
    cases hst with
    | vrfOk st ps w f =>
      exact absurd ((hinv.1 rfl).1.symm.trans hfail) (by simp)
    | vrfErr st ps w f r' =>
      exact absurd ((hinv.1 rfl).1.symm.trans hfail) (by simp)
    | tickSnapshot p ps w f => exact absurd hfail (by simp)
    | spawnAttempt st p ps w f =>
      exact absurd (hinv.2.2.1 r hfail).1 (by simp)
    | attemptTimeout st p ps w f =>
      exact absurd (hinv.2.2.1 r hfail).2.1 (by simp)
    | attemptRandom st p ps w f =>
      exact absurd (hinv.2.2.1 r hfail).2.1 (by simp)
    | finalizeOk st p ps w f =>
      exact absurd (hinv.2.2.1 r hfail).2.2 (by simp)
    | finalizeErr st p ps w f r' =>
      exact absurd (hinv.2.2.1 r hfail).2.2 (by simp)

/-- Witness for the C1 amended theorem at the first transition of a fresh
session. -/
theorem status_forward_witness :
    (SessionState.mk .WaitingForVRF false 0 0 0).status = initSession.status
    ∨ statusRank initSession.status
        < statusRank (SessionState.mk .WaitingForVRF false 0 0 0).status
    ∨ (initSession.status = .Ready
        ∧ (SessionState.mk .WaitingForVRF false 0 0 0).status = .GeneratingProof
        ∧ OrchEvent.vrfOk = .attemptRandom) :=
  status_forward_except_duplicate_finalize.1 initSession .vrfOk
    ⟨.WaitingForVRF, false, 0, 0, 0⟩ Relation.ReflTransGen.refl
    (Step.vrfOk .Requesting 0 0 0)

/-- C2 counterexample: a session whose finalize attempt fails at the
proof/upload stage is reachable in `GeneratingProof`; the failing attempt
ends with the status unchanged — not `Failed`. -/
theorem finalize_error_not_failed_counterexample :
    Reachable ⟨.GeneratingProof, false, 0, 0, 1⟩
    ∧ Step ⟨.GeneratingProof, false, 0, 0, 1⟩
        (.finalizeErr "Proof upload failed") ⟨.GeneratingProof, false, 0, 0, 0⟩
    ∧ isFailed (SessionState.mk .GeneratingProof false 0 0 0).status = false :=
  ⟨reachable_gp_finalizing,
   Step.finalizeErr .GeneratingProof false 0 0 0 "Proof upload failed",
   rfl⟩

/-- C2 (amended): a proof-computation or upload failure is only logged — the
failing attempt ends without writing any status (the record keeps its
current status, never set to `Failed`), and since the scheduler only selects
`WaitingForVRF` records, a session left in `GeneratingProof` with no
outstanding task is permanently stuck: no event applies to it. -/
theorem finalize_error_only_logged :
    (∀ s s' (r : String), Step s (.finalizeErr r) s' →
        s'.status = s.status ∧ s'.finalizing + 1 = s.finalizing
        ∧ s'.waiting = s.waiting ∧ s'.pendingSpawn = s.pendingSpawn)
    ∧ (∀ s : SessionState, s.status = .GeneratingProof →
        s.vrfReqPending = false → s.pendingSpawn = 0 → s.waiting = 0 →
        s.finalizing = 0 → ∀ e s', ¬ Step s e s') := by
  constructor
  · intro s s' r h
    cases h
    exact ⟨rfl, rfl, rfl, rfl⟩
  · intro s hgp hp hps hw hf e s' hstep
    cases hstep <;> simp_all

/-- Witness for the C2 amended theorem at the concrete failing attempt and
the stuck state it leaves behind. -/
theorem finalize_error_only_logged_witness :
    ((SessionState.mk .GeneratingProof false 0 0 0).status
        = (SessionState.mk .GeneratingProof false 0 0 1).status
      ∧ (0 : Nat) + 1 = 1 ∧ (0 : Nat) = 0 ∧ (0 : Nat) = 0)
    ∧ ¬ Step ⟨.GeneratingProof, false, 0, 0, 0⟩ .finalizeOk
        ⟨.Ready, false, 0, 0, 0⟩ :=
  ⟨finalize_error_only_logged.1 ⟨.GeneratingProof, false, 0, 0, 1⟩
      ⟨.GeneratingProof, false, 0, 0, 0⟩ "Proof upload failed"
      (Step.finalizeErr .GeneratingProof false 0 0 0 "Proof upload failed"),
   finalize_error_only_logged.2 ⟨.GeneratingProof, false, 0, 0, 0⟩
      rfl rfl rfl rfl rfl .finalizeOk ⟨.Ready, false, 0, 0, 0⟩⟩

/-- C8 counterexample: two finalize attempts for the same session can be in
flight at once — a state with two concurrently polling attempts is
reachable. -/
theorem duplicate_attempts_counterexample :
    Reachable ⟨.WaitingForVRF, false, 0, 2, 0⟩
    ∧ ¬ inFlightAttempts ⟨.WaitingForVRF, false, 0, 2, 0⟩ ≤ 1 :=
  ⟨reachable_wfv_waiting 2, by decide⟩

/-- C8 (amended): the fulfillment loop has no in-flight marker — each tick
launches a new finalize attempt for every record whose status snapshot was
`WaitingForVRF`, even while previous attempts for the same session are
still in flight, and any number of simultaneous in-flight attempts for one
session is reachable. -/
theorem unbounded_concurrent_attempts (k : Nat) :
    Reachable ⟨.WaitingForVRF, false, 0, k, 0⟩
    ∧ inFlightAttempts ⟨.WaitingForVRF, false, 0, k, 0⟩ = k :=
  ⟨reachable_wfv_waiting k, Nat.add_zero k⟩

/-! ## Claim C3 -/

/-- C3 counterexample: for the invalid request `(0, 5)` — zero players —
`initiate_game` still returns `Ok` and inserts a `Requesting` record into
the previously empty `pending_games` map, while `validate_game_params`
rejects the same parameters. -/
theorem initiate_game_no_validation_counterexample :
    (validate_game_params 0 5).isOk = false
    ∧ ((initiate_game Registry.empty "sid" 0 5 42).1).isOk = true
    ∧ ((initiate_game Registry.empty "sid" 0 5 42).2 "sid").isSome = true
    ∧ (Registry.empty "sid").isSome = false := by
  refine ⟨rfl, rfl, ?_, rfl⟩
  simp [initiate_game, Registry.insert]

/-- C3 (amended): `initiate_game` performs no parameter validation at all —
for every input, valid or not, it returns `Ok` and inserts a `Requesting`
record for the fresh session id.  The bounds of the claim
(`1 ≤ players ≤ 10`, `1 ≤ cards ≤ 20`, `players × cards < 108`) are
enforced only by `validate_game_params`, which rejects every out-of-bounds
input but is first invoked inside `perform_shuffle` during finalization. -/
theorem initiate_game_inserts_unconditionally (reg : Registry) (sid : String)
    (p c now : Nat) :
    (initiate_game reg sid p c now).1
        = .ok ⟨sid, .Requesting, 60, 0⟩
    ∧ (initiate_game reg sid p c now).2 sid
        = some ⟨sid, 0, 0, p, c, now, .Requesting⟩
    ∧ ((p = 0 ∨ 10 < p ∨ c = 0 ∨ 20 < c ∨ 108 ≤ p * c) →
        ∃ e, validate_game_params p c = .error e) := by
  refine ⟨rfl, by simp [initiate_game, Registry.insert], ?_⟩
  intro hbad
  match hv : validate_game_params p c with
  | .error e => exact ⟨e, rfl⟩
  | .ok u =>
    cases u
    have := (validate_game_params_ok_iff p c).mp hv
    simp only [MAX_PLAYERS, MAX_CARDS_PER_PLAYER, DECK_SIZE] at this
    omega

/-- Witness for the C3 amended theorem at the invalid input `(0, 5)`. -/
theorem initiate_game_inserts_unconditionally_witness :
    (initiate_game Registry.empty "s" 0 5 1).1
        = .ok ⟨"s", .Requesting, 60, 0⟩
    ∧ (∃ e, validate_game_params 0 5 = .error e) :=
  ⟨(initiate_game_inserts_unconditionally Registry.empty "s" 0 5 1).1,
   (initiate_game_inserts_unconditionally Registry.empty "s" 0 5 1).2.2
     (Or.inl rfl)⟩

end ZunnoGame
